import Mathlib

/-!
# Verification of the orbital-kinematics / camera core of the galaxy simulation

Shallow embedding of the `Simulation` class (`simulation.js`) and the UI glue
(`main.js`).  JavaScript numbers are modelled as real numbers; `THREE.Vector3`
is modelled as a record of three reals with the operations the code uses.
Scene-graph, material and texture code is cosmetic and out of scope; external
collaborators (`OrbitControls.update`, `renderer.render`) are modelled as
opaque effects recorded by counters, since the core never reads anything back
from them.
-/

namespace Galaxy

/-- A 3-component real vector, modelling `THREE.Vector3`. -/
@[ext]
structure Vec3 where
  x : ℝ
  y : ℝ
  z : ℝ

/-- Models `Vector3.add`. -/
def vadd (u v : Vec3) : Vec3 := ⟨u.x + v.x, u.y + v.y, u.z + v.z⟩

/-- Models `Vector3.sub`. -/
def vsub (u v : Vec3) : Vec3 := ⟨u.x - v.x, u.y - v.y, u.z - v.z⟩

/-- Models `Vector3.multiplyScalar`. -/
def vscale (k : ℝ) (v : Vec3) : Vec3 := ⟨k * v.x, k * v.y, k * v.z⟩

/-- Models `Vector3.length`: `sqrt(x*x + y*y + z*z)`. -/
noncomputable def vlen (v : Vec3) : ℝ := Real.sqrt (v.x * v.x + v.y * v.y + v.z * v.z)

/-- Models `Vector3.normalize`: `divideScalar(length() || 1)` — the zero vector is
left unchanged (JavaScript `0 || 1` fallback). -/
noncomputable def vnormalize (v : Vec3) : Vec3 :=
  vscale (1 / (if vlen v = 0 then 1 else vlen v)) v

/-- Camera state used by `zoomIn` / `zoomOut`: `this.camera.position`,
`this.controls.target`, `this.controls.minDistance`, `this.controls.maxDistance`. -/
structure Camera where
  pos : Vec3
  target : Vec3
  minDistance : ℝ
  maxDistance : ℝ

/-- Distance from the camera to the orbit target (the `currentDist` of the code). -/
noncomputable def camDist (c : Camera) : ℝ := vlen (vsub c.pos c.target)

/-- Models `Simulation.zoomIn`:
`offset = camera.position - target; newDist = max(minDistance, |offset| * 0.8);
camera.position = target + normalize(offset) * newDist`. -/
noncomputable def zoomIn (c : Camera) : Camera :=
  let offset := vsub c.pos c.target
  let currentDist := vlen offset
  let newDist := max c.minDistance (currentDist * 0.8)
  { c with pos := vadd c.target (vscale newDist (vnormalize offset)) }

/-- Models `Simulation.zoomOut`:
`offset = camera.position - target; newDist = min(maxDistance, |offset| * 1.25);
camera.position = target + normalize(offset) * newDist`. -/
noncomputable def zoomOut (c : Camera) : Camera :=
  let offset := vsub c.pos c.target
  let currentDist := vlen offset
  let newDist := min c.maxDistance (currentDist * 1.25)
  { c with pos := vadd c.target (vscale newDist (vnormalize offset)) }

/-- The camera as configured in `init`: `camera.position.set(0, 60, 80)`,
`controls.target` at its default origin, `controls.minDistance = 10`,
`controls.maxDistance = 300`. -/
def initCamera : Camera :=
  { pos := ⟨0, 60, 80⟩, target := ⟨0, 0, 0⟩, minDistance := 10, maxDistance := 300 }

/-! ## Basic vector lemmas -/

theorem vlen_nonneg (v : Vec3) : 0 ≤ vlen v := Real.sqrt_nonneg _

theorem vlen_eq_zero_iff (v : Vec3) : vlen v = 0 ↔ v = ⟨0, 0, 0⟩ := by
  constructor
  · intro h
    have hsum : v.x * v.x + v.y * v.y + v.z * v.z ≤ 0 := Real.sqrt_eq_zero'.mp h
    have hx : v.x = 0 := by nlinarith [mul_self_nonneg v.x, mul_self_nonneg v.y, mul_self_nonneg v.z]
    have hy : v.y = 0 := by nlinarith [mul_self_nonneg v.x, mul_self_nonneg v.y, mul_self_nonneg v.z]
    have hz : v.z = 0 := by nlinarith [mul_self_nonneg v.x, mul_self_nonneg v.y, mul_self_nonneg v.z]
    ext <;> simp [hx, hy, hz]
  · intro h
    subst h
    simp [vlen]

theorem vlen_vscale (k : ℝ) (v : Vec3) : vlen (vscale k v) = |k| * vlen v := by
  unfold vlen vscale
  have h : k * v.x * (k * v.x) + k * v.y * (k * v.y) + k * v.z * (k * v.z)
      = k ^ 2 * (v.x * v.x + v.y * v.y + v.z * v.z) := by ring
  rw [h, Real.sqrt_mul (sq_nonneg k), Real.sqrt_sq_eq_abs]

theorem vlen_vnormalize (v : Vec3) (h : vlen v ≠ 0) : vlen (vnormalize v) = 1 := by
  unfold vnormalize
  rw [vlen_vscale, if_neg h]
  have hpos : 0 < vlen v := lt_of_le_of_ne (vlen_nonneg v) (Ne.symm h)
  rw [abs_of_pos (by positivity)]
  field_simp

theorem vsub_vadd_cancel (t w : Vec3) : vsub (vadd t w) t = w := by
  ext <;> simp [vsub, vadd]

/-! ## Zoom distance lemmas -/

theorem zoomIn_target (c : Camera) : (zoomIn c).target = c.target := rfl

theorem zoomIn_minDistance (c : Camera) : (zoomIn c).minDistance = c.minDistance := rfl

theorem zoomIn_maxDistance (c : Camera) : (zoomIn c).maxDistance = c.maxDistance := rfl

theorem zoomOut_target (c : Camera) : (zoomOut c).target = c.target := rfl

theorem zoomOut_minDistance (c : Camera) : (zoomOut c).minDistance = c.minDistance := rfl

theorem zoomOut_maxDistance (c : Camera) : (zoomOut c).maxDistance = c.maxDistance := rfl

theorem camDist_zoomIn (c : Camera) (hd : camDist c ≠ 0) :
    camDist (zoomIn c) = max c.minDistance (camDist c * 0.8) := by
  have hpos : 0 < camDist c := lt_of_le_of_ne (vlen_nonneg _) (Ne.symm hd)
  have hnew : 0 ≤ max c.minDistance (camDist c * 0.8) :=
    le_trans (by linarith) (le_max_right _ _)
  unfold zoomIn camDist at *
  rw [vsub_vadd_cancel, vlen_vscale, vlen_vnormalize _ hd, mul_one, abs_of_nonneg hnew]

theorem camDist_zoomIn_zero (c : Camera) (hd : camDist c = 0) :
    camDist (zoomIn c) = 0 := by
  have hv : vsub c.pos c.target = ⟨0, 0, 0⟩ := (vlen_eq_zero_iff _).mp hd
  unfold zoomIn camDist at *
  rw [hv, vsub_vadd_cancel]
  simp [vnormalize, vscale, vlen, Real.sqrt_eq_zero']

theorem camDist_zoomOut_zero (c : Camera) (hd : camDist c = 0) :
    camDist (zoomOut c) = 0 := by
  have hv : vsub c.pos c.target = ⟨0, 0, 0⟩ := (vlen_eq_zero_iff _).mp hd
  unfold zoomOut camDist at *
  rw [hv, vsub_vadd_cancel]
  simp [vnormalize, vscale, vlen, Real.sqrt_eq_zero']

theorem camDist_zoomOut (c : Camera) (hM : 0 ≤ c.maxDistance) :
    camDist (zoomOut c) = min c.maxDistance (camDist c * 1.25) := by
  by_cases hd : camDist c = 0
  · rw [camDist_zoomOut_zero c hd, hd]
    simp [hM]
  · have hpos : 0 < camDist c := lt_of_le_of_ne (vlen_nonneg _) (Ne.symm hd)
    have hnew : 0 ≤ min c.maxDistance (camDist c * 1.25) :=
      le_min hM (by linarith)
    unfold zoomOut camDist at *
    rw [vsub_vadd_cancel, vlen_vscale, vlen_vnormalize _ hd, mul_one, abs_of_nonneg hnew]

theorem camDist_initCamera : camDist initCamera = 100 := by
  unfold camDist initCamera vsub vlen
  norm_num
  rw [show (10000 : ℝ) = 100 ^ 2 by norm_num, Real.sqrt_sq (by norm_num)]


/-! ## Iterated zoom -/

theorem zoomIn_iter_minDistance (c : Camera) (n : ℕ) :
    (zoomIn^[n] c).minDistance = c.minDistance := by
  induction n with
  | zero => rfl
  | succ m ih => rw [Function.iterate_succ_apply', zoomIn_minDistance, ih]

theorem zoomOut_iter_maxDistance (c : Camera) (n : ℕ) :
    (zoomOut^[n] c).maxDistance = c.maxDistance := by
  induction n with
  | zero => rfl
  | succ m ih => rw [Function.iterate_succ_apply', zoomOut_maxDistance, ih]

theorem camDist_zoomIn_iter (c : Camera) (hd : 0 < camDist c) (hm : 0 < c.minDistance) :
    ∀ n, 1 ≤ n → camDist (zoomIn^[n] c) = max c.minDistance (0.8 ^ n * camDist c) := by
  intro n hn
  induction n with
  | zero => exact absurd hn (by norm_num)
  | succ m ih =>
    rcases Nat.eq_zero_or_pos m with hm0 | hmpos
    · subst hm0
      rw [Function.iterate_one, camDist_zoomIn c (ne_of_gt hd), pow_one, mul_comm]
    · have ihm := ih hmpos
      have hdist : camDist (zoomIn^[m] c) = max c.minDistance (0.8 ^ m * camDist c) := ihm
      have hdm : camDist (zoomIn^[m] c) ≠ 0 := by
        rw [hdist]
        exact ne_of_gt (lt_of_lt_of_le hm (le_max_left _ _))
      rw [Function.iterate_succ_apply', camDist_zoomIn _ hdm, zoomIn_iter_minDistance, hdist]
      have hsplit : max c.minDistance (0.8 ^ m * camDist c) * 0.8
          = max (c.minDistance * 0.8) (0.8 ^ (m + 1) * camDist c) := by
        rw [max_mul_of_nonneg _ _ (by norm_num : (0:ℝ) ≤ 0.8)]
        ring_nf
      rw [hsplit, ← max_assoc, max_eq_left (by nlinarith : c.minDistance * 0.8 ≤ c.minDistance)]

theorem zoomIn_converges (c : Camera) (hd : 0 < camDist c) (hm : 0 < c.minDistance) :
    ∃ N, ∀ n, N ≤ n → camDist (zoomIn^[n] c) = c.minDistance := by
  obtain ⟨K, hK⟩ := exists_pow_lt_of_lt_one (div_pos hm hd) (by norm_num : (0.8:ℝ) < 1)
  refine ⟨max K 1, fun n hn => ?_⟩
  have hn1 : 1 ≤ n := le_trans (le_max_right _ _) hn
  have hnK : K ≤ n := le_trans (le_max_left _ _) hn
  rw [camDist_zoomIn_iter c hd hm n hn1]
  refine max_eq_left ?_
  have h1 : (0.8:ℝ) ^ n ≤ 0.8 ^ K := pow_le_pow_of_le_one (by norm_num) (by norm_num) hnK
  have h2 : (0.8:ℝ) ^ K * camDist c < c.minDistance := (lt_div_iff₀ hd).mp hK
  nlinarith [le_of_lt hd]

theorem camDist_zoomOut_iter (c : Camera) (hM : 0 ≤ c.maxDistance) :
    ∀ n, 1 ≤ n → camDist (zoomOut^[n] c) = min c.maxDistance (1.25 ^ n * camDist c) := by
  intro n hn
  induction n with
  | zero => exact absurd hn (by norm_num)
  | succ m ih =>
    rcases Nat.eq_zero_or_pos m with hm0 | hmpos
    · subst hm0
      rw [Function.iterate_one, camDist_zoomOut c hM, pow_one, mul_comm]
    · have ihm := ih hmpos
      have hMm : 0 ≤ (zoomOut^[m] c).maxDistance := by
        rw [zoomOut_iter_maxDistance]; exact hM
      rw [Function.iterate_succ_apply', camDist_zoomOut _ hMm, zoomOut_iter_maxDistance, ihm]
      have hsplit : min c.maxDistance (1.25 ^ m * camDist c) * 1.25
          = min (c.maxDistance * 1.25) (1.25 ^ (m + 1) * camDist c) := by
        rw [min_mul_of_nonneg _ _ (by norm_num : (0:ℝ) ≤ 1.25)]
        ring_nf
      rw [hsplit, ← min_assoc, min_eq_left (by nlinarith : c.maxDistance ≤ c.maxDistance * 1.25)]

theorem zoomOut_converges (c : Camera) (hd : 0 < camDist c) (hM : 0 ≤ c.maxDistance) :
    ∃ N, ∀ n, N ≤ n → camDist (zoomOut^[n] c) = c.maxDistance := by
  obtain ⟨K, hK⟩ := pow_unbounded_of_one_lt (c.maxDistance / camDist c) (by norm_num : (1:ℝ) < 1.25)
  refine ⟨max K 1, fun n hn => ?_⟩
  have hn1 : 1 ≤ n := le_trans (le_max_right _ _) hn
  have hnK : K ≤ n := le_trans (le_max_left _ _) hn
  rw [camDist_zoomOut_iter c hM n hn1]
  refine min_eq_left ?_
  have h1 : (1.25:ℝ) ^ K ≤ 1.25 ^ n := pow_le_pow_right₀ (by norm_num) hnK
  have h2 : c.maxDistance < (1.25:ℝ) ^ K * camDist c := by
    have := (div_lt_iff₀ hd).mp hK
    linarith
  nlinarith [le_of_lt hd]

/-! ## Claims about the camera -/

/-- C4: `zoomIn()` sets the camera distance to `max(minDistance, d * 0.8)` and
`zoomOut()` to `min(maxDistance, d * 1.25)`, each repositioning the camera
radially along the existing view direction from the target; from the initial
camera (distance 100, `minDistance = 10`), three consecutive `zoomIn()` calls
yield distances 80, 64 and 51.2. -/
theorem claim4_zoom_step_formulas :
    (∀ cam : Camera, camDist cam ≠ 0 → 0 ≤ cam.maxDistance →
      camDist (zoomIn cam) = max cam.minDistance (camDist cam * 0.8) ∧
      camDist (zoomOut cam) = min cam.maxDistance (camDist cam * 1.25) ∧
      (zoomIn cam).pos = vadd cam.target
        (vscale (max cam.minDistance (camDist cam * 0.8)) (vnormalize (vsub cam.pos cam.target))) ∧
      (zoomOut cam).pos = vadd cam.target
        (vscale (min cam.maxDistance (camDist cam * 1.25)) (vnormalize (vsub cam.pos cam.target)))) ∧
    camDist (zoomIn initCamera) = 80 ∧
    camDist (zoomIn (zoomIn initCamera)) = 64 ∧
    camDist (zoomIn (zoomIn (zoomIn initCamera))) = 51.2 := by
  have h1 : camDist (zoomIn initCamera) = 80 := by
    rw [camDist_zoomIn _ (by rw [camDist_initCamera]; norm_num), camDist_initCamera,
      max_eq_right (by norm_num [initCamera])]
    norm_num
  have h2 : camDist (zoomIn (zoomIn initCamera)) = 64 := by
    rw [camDist_zoomIn _ (by rw [h1]; norm_num), zoomIn_minDistance, h1,
      max_eq_right (by norm_num [initCamera])]
    norm_num
  have h3 : camDist (zoomIn (zoomIn (zoomIn initCamera))) = 51.2 := by
    rw [camDist_zoomIn _ (by rw [h2]; norm_num), zoomIn_minDistance, zoomIn_minDistance, h2,
      max_eq_right (by norm_num [initCamera])]
    norm_num
  refine ⟨fun cam hd hM => ⟨camDist_zoomIn cam hd, camDist_zoomOut cam hM, rfl, rfl⟩, h1, h2, h3⟩

/-- Witness for C4 at the program camera. -/
theorem claim4_witness :
    camDist (zoomIn initCamera) = max initCamera.minDistance (camDist initCamera * 0.8) :=
  (claim4_zoom_step_formulas.1 initCamera (by rw [camDist_initCamera]; norm_num)
    (by norm_num [initCamera])).1

/-- A camera sitting exactly at its target (distance 0), with the bounds the
program configures. -/
def degenerateCamera : Camera :=
  { pos := ⟨0, 0, 0⟩, target := ⟨0, 0, 0⟩, minDistance := 10, maxDistance := 300 }

/-- C5 counterexample: at starting distance 0 the camera is a fixed point of
`zoomIn` (the `normalize()` of the zero offset is the zero vector), so repeated
`zoomIn()` calls stay at distance 0 — strictly below `minDistance = 10` — and
never converge to `minDistance`. -/
theorem claim5_counterexample :
    zoomIn degenerateCamera = degenerateCamera ∧
    camDist (zoomIn degenerateCamera) < (zoomIn degenerateCamera).minDistance := by
  have hd : camDist degenerateCamera = 0 := by
    unfold camDist degenerateCamera vsub vlen
    norm_num
  have hfix : zoomIn degenerateCamera = degenerateCamera := by
    have hv : vsub degenerateCamera.pos degenerateCamera.target = ⟨0, 0, 0⟩ := by
      unfold degenerateCamera vsub
      norm_num
    unfold zoomIn
    rw [hv]
    unfold vnormalize vscale vadd vlen degenerateCamera
    norm_num
  refine ⟨hfix, ?_⟩
  rw [hfix, hd]
  norm_num [degenerateCamera]

/-- C5 (amended): for every starting distance strictly greater than 0 (and
positive configured bounds), repeated `zoomIn()` calls never produce a distance
below `minDistance` and eventually stay exactly at `minDistance`; repeated
`zoomOut()` calls never produce a distance above `maxDistance` and eventually
stay exactly at `maxDistance`. -/
theorem claim5_zoom_bounds (cam : Camera) (hd : 0 < camDist cam)
    (hmin : 0 < cam.minDistance) (hmax : 0 ≤ cam.maxDistance) :
    (∀ n, 1 ≤ n → cam.minDistance ≤ camDist (zoomIn^[n] cam)) ∧
    (∃ N, ∀ n, N ≤ n → camDist (zoomIn^[n] cam) = cam.minDistance) ∧
    (∀ n, 1 ≤ n → camDist (zoomOut^[n] cam) ≤ cam.maxDistance) ∧
    (∃ N, ∀ n, N ≤ n → camDist (zoomOut^[n] cam) = cam.maxDistance) := by
  refine ⟨fun n hn => ?_, zoomIn_converges cam hd hmin, fun n hn => ?_,
    zoomOut_converges cam hd hmax⟩
  · rw [camDist_zoomIn_iter cam hd hmin n hn]
    exact le_max_left _ _
  · rw [camDist_zoomOut_iter cam hmax n hn]
    exact min_le_left _ _

/-- Witness for the amended C5 at the program camera. -/
theorem claim5_witness : initCamera.minDistance ≤ camDist (zoomIn^[1] initCamera) :=
  (claim5_zoom_bounds initCamera (by rw [camDist_initCamera]; norm_num)
    (by norm_num [initCamera]) (by norm_num [initCamera])).1 1 le_rfl

/-- C9: `zoomIn` then `zoomOut` restores the camera distance exactly whenever
`minDistance ≤ 0.8 * d` and `d ≤ maxDistance`, and `zoomOut` then `zoomIn`
restores it whenever `1.25 * d ≤ maxDistance` and `minDistance ≤ d` (the
factors 0.8 and 1.25 are exact reciprocals). -/
theorem claim9_zoom_roundtrip (cam : Camera) :
    (cam.minDistance ≤ 0.8 * camDist cam → camDist cam ≤ cam.maxDistance →
      camDist (zoomOut (zoomIn cam)) = camDist cam) ∧
    (1.25 * camDist cam ≤ cam.maxDistance → cam.minDistance ≤ camDist cam →
      camDist (zoomIn (zoomOut cam)) = camDist cam) := by
  constructor
  · intro h1 h2
    by_cases hd : camDist cam = 0
    · rw [camDist_zoomOut_zero _ (camDist_zoomIn_zero cam hd), hd]
    · have hpos : 0 < camDist cam := lt_of_le_of_ne (vlen_nonneg _) (Ne.symm hd)
      have hM : 0 ≤ cam.maxDistance := le_trans (le_of_lt hpos) h2
      have hin : camDist (zoomIn cam) = 0.8 * camDist cam := by
        rw [camDist_zoomIn cam hd, max_eq_right (by linarith)]
        ring
      rw [camDist_zoomOut (zoomIn cam) (by rw [zoomIn_maxDistance]; exact hM),
        zoomIn_maxDistance, hin, show (0.8:ℝ) * camDist cam * 1.25 = camDist cam by ring,
        min_eq_right h2]
  · intro h1 h2
    by_cases hd : camDist cam = 0
    · rw [camDist_zoomIn_zero _ (camDist_zoomOut_zero cam hd), hd]
    · have hpos : 0 < camDist cam := lt_of_le_of_ne (vlen_nonneg _) (Ne.symm hd)
      have hM : 0 ≤ cam.maxDistance := le_trans (by linarith) h1
      have hout : camDist (zoomOut cam) = 1.25 * camDist cam := by
        rw [camDist_zoomOut cam hM, min_eq_right (by linarith)]
        ring
      have houtNe : camDist (zoomOut cam) ≠ 0 := by
        rw [hout]
        exact (mul_pos (by norm_num) hpos).ne'
      rw [camDist_zoomIn _ houtNe, zoomOut_minDistance, hout,
        show (1.25:ℝ) * camDist cam * 0.8 = camDist cam by ring,
        max_eq_right h2]

/-- Witness for C9 at the program camera (distance 100, bounds 10/300). -/
theorem claim9_witness : camDist (zoomOut (zoomIn initCamera)) = camDist initCamera :=
  (claim9_zoom_roundtrip initCamera).1
    (by rw [camDist_initCamera]; norm_num [initCamera])
    (by rw [camDist_initCamera]; norm_num [initCamera])


/-! ## The body registry and the frame loop -/

/-- One row of the `bodies` parameter table in `init` (the `color` triple is
cosmetic but kept for fidelity). -/
structure BodyData where
  name : String
  r : ℝ
  size : ℝ
  colorR : ℝ
  colorG : ℝ
  colorB : ℝ
  speed : ℝ
  e : ℝ

/-- Runtime per-body state: the entry stored in `this.planets`
(`{ mesh, label, data, angle }`).  The mesh handle is represented by the state
the core reads and writes: its position and its y-rotation; the label handle by
its position; `timeUniform` is the Sun material's time uniform. -/
structure Planet where
  data : BodyData
  angle : ℝ
  rotY : ℝ
  meshPos : Vec3
  labelPos : Vec3
  timeUniform : ℝ

/-- Creation of one registry entry in the `init` loop: mesh and sprite are
created at the scene-graph default position `(0,0,0)` with rotation 0, the
starting `angle` is `Math.random() * Math.PI * 2` (randomness is a parameter
here), and the Sun's time uniform starts at `uniform(0)`. -/
def mkPlanet (b : BodyData) (angle : ℝ) : Planet :=
  { data := b, angle := angle, rotY := 0, meshPos := ⟨0, 0, 0⟩,
    labelPos := ⟨0, 0, 0⟩, timeUniform := 0 }

/-- The `init` construction of `this.planets` from the parameter table: one
entry per table row, in table order, with no validation of any kind. -/
def initPlanets (table : List BodyData) (angles : List ℝ) : List Planet :=
  List.zipWith mkPlanet table angles

/-- The `bodies` table of `init` (colors included verbatim). -/
def bodiesTable : List BodyData :=
  [⟨"Sun", 0, 5.0, 1.0, 0.6, 0.1, 0, 0⟩,
   ⟨"Mercury", 10, 0.4, 0.7, 0.7, 0.7, 4.0, 0.206⟩,
   ⟨"Venus", 15, 0.9, 0.9, 0.8, 0.6, 3.0, 0.007⟩,
   ⟨"Earth", 20, 1.0, 0.0, 0.4, 0.8, 2.4, 0.017⟩,
   ⟨"Mars", 25, 0.5, 1.0, 0.3, 0.2, 2.0, 0.093⟩,
   ⟨"Jupiter", 35, 2.5, 0.8, 0.7, 0.6, 1.3, 0.049⟩,
   ⟨"Saturn", 45, 2.1, 0.9, 0.8, 0.5, 0.9, 0.056⟩,
   ⟨"Uranus", 55, 1.5, 0.6, 0.8, 0.9, 0.6, 0.046⟩,
   ⟨"Neptune", 65, 1.4, 0.3, 0.4, 1.0, 0.5, 0.010⟩]

/-- The elliptical-orbit computation inlined in `animate`:
`b = a*sqrt(1-e*e); c = a*e; x = cos(angle)*a - c; z = sin(angle)*b`,
with `position.set(x, 0, z)`. -/
noncomputable def orbitPosition (a e angle : ℝ) : Vec3 :=
  let b := a * Real.sqrt (1 - e * e)
  let c := a * e
  ⟨Real.cos angle * a - c, 0, Real.sin angle * b⟩

/-- The body of the per-planet `for` loop in `animate`, for loop index `i` and
current simulation `time`.  Index 0 (the Sun) is pinned to the origin and gets
the time uniform; other bodies advance `angle` and spin only when not paused,
then always recompute the elliptical position.  Finally the label is moved to
the mesh position raised by `size + 2.0`. -/
noncomputable def updatePlanet (isPaused : Bool) (time : ℝ) (i : ℕ) (p : Planet) : Planet :=
  if i = 0 then
    let p1 := { p with meshPos := ⟨0, 0, 0⟩, timeUniform := time }
    { p1 with labelPos := ⟨p1.meshPos.x, p1.meshPos.y + (p1.data.size + 2.0), p1.meshPos.z⟩ }
  else
    let p1 := if isPaused then p else
      { p with angle := p.angle + p.data.speed * 0.005, rotY := p.rotY + 0.01 }
    let p2 := { p1 with meshPos := orbitPosition p1.data.r p1.data.e p1.angle }
    { p2 with labelPos := ⟨p2.meshPos.x, p2.meshPos.y + (p2.data.size + 2.0), p2.meshPos.z⟩ }

/-- The indexed `for (let i = 0; ...)` loop of `animate` over `this.planets`,
starting at loop index `i`. -/
noncomputable def updatePlanets (isPaused : Bool) (time : ℝ) (i : ℕ) :
    List Planet → List Planet
  | [] => []
  | p :: ps => updatePlanet isPaused time i p :: updatePlanets isPaused time (i + 1) ps

/-- The mutable state of the `Simulation` instance read and written by the
frame loop.  `controlsUpdates` and `renders` count the calls to the external
collaborators `controls.update()` and `renderer.render(scene, camera)`; the
camera field is only ever written by `zoomIn` / `zoomOut` (no drag input is
modelled). -/
structure SimState where
  planets : List Planet
  time : ℝ
  isPaused : Bool
  targetPos : Vec3
  camera : Camera
  controlsUpdates : ℕ
  renders : ℕ

/-- Models `Simulation.animate`: `controls.update()`; advance `this.time` by `0.01`
unless paused; run the per-planet loop; `renderer.render(scene, camera)`. -/
noncomputable def animate (s : SimState) : SimState :=
  let time := if s.isPaused then s.time else s.time + 0.01
  { s with
    controlsUpdates := s.controlsUpdates + 1,
    time := time,
    planets := updatePlanets s.isPaused time 0 s.planets,
    renders := s.renders + 1 }

/-- Models `Simulation.updateInteraction({isStopped})`: stores the paused flag (the
sun-light reposition it also performs is cosmetic and not modelled). -/
def updateInteraction (isStopped : Bool) (s : SimState) : SimState :=
  { s with isPaused := isStopped }

/-- Modelled from the spec: `setTarget(vector)` stores the latest desired
central-body position in `this.targetPos`.  Only the `targetPos` field and its
initialization appear in the provided sources; the setter itself (hand-tracking
input) does not, so it is modelled from the spec as a plain store. -/
def setTarget (v : Vec3) (s : SimState) : SimState :=
  { s with targetPos := v }

/-! ## Frame-loop lemmas -/

theorem updatePlanets_length (b : Bool) (t : ℝ) (k : ℕ) (l : List Planet) :
    (updatePlanets b t k l).length = l.length := by
  induction l generalizing k with
  | nil => rfl
  | cons p ps ih => simp [updatePlanets, ih]

theorem updatePlanets_getElem? (b : Bool) (t : ℝ) (k i : ℕ) (l : List Planet) :
    (updatePlanets b t k l)[i]? = (l[i]?).map (updatePlanet b t (k + i)) := by
  induction l generalizing k i with
  | nil => simp [updatePlanets]
  | cons p ps ih =>
    cases i with
    | zero => simp [updatePlanets]
    | succ j =>
      have hk : k + 1 + j = k + (j + 1) := by omega
      simp only [updatePlanets, List.getElem?_cons_succ, ih (k + 1) j, hk]

theorem animate_planets (s : SimState) :
    (animate s).planets
      = updatePlanets s.isPaused (if s.isPaused then s.time else s.time + 0.01) 0 s.planets := rfl

theorem animate_getElem? (s : SimState) (i : ℕ) :
    (animate s).planets[i]?
      = (s.planets[i]?).map
          (updatePlanet s.isPaused (if s.isPaused then s.time else s.time + 0.01) i) := by
  rw [animate_planets, updatePlanets_getElem?]
  simp

theorem animate_planets_length (s : SimState) :
    (animate s).planets.length = s.planets.length := by
  rw [animate_planets, updatePlanets_length]

theorem animate_isPaused (s : SimState) : (animate s).isPaused = s.isPaused := rfl

theorem animate_camera (s : SimState) : (animate s).camera = s.camera := rfl

theorem animate_time_paused (s : SimState) (hp : s.isPaused = true) :
    (animate s).time = s.time := by
  simp [animate, hp]

theorem updatePlanet_meshPos_zero (b : Bool) (t : ℝ) (p : Planet) :
    (updatePlanet b t 0 p).meshPos = ⟨0, 0, 0⟩ := by
  simp [updatePlanet]


theorem updatePlanet_angle_paused (t : ℝ) (i : ℕ) (p : Planet) :
    (updatePlanet true t i p).angle = p.angle := by
  by_cases h : i = 0 <;> simp [updatePlanet, h]

theorem updatePlanet_idem_paused (t : ℝ) (i : ℕ) (p : Planet) :
    updatePlanet true t i (updatePlanet true t i p) = updatePlanet true t i p := by
  by_cases h : i = 0 <;> simp [updatePlanet, h]

theorem updatePlanets_map_angle_paused (t : ℝ) (k : ℕ) (l : List Planet) :
    (updatePlanets true t k l).map (fun q => q.angle) = l.map (fun q => q.angle) := by
  induction l generalizing k with
  | nil => rfl
  | cons p ps ih => simp [updatePlanets, updatePlanet_angle_paused, ih]

theorem updatePlanets_idem_paused (t : ℝ) (k : ℕ) (l : List Planet) :
    updatePlanets true t k (updatePlanets true t k l) = updatePlanets true t k l := by
  induction l generalizing k with
  | nil => rfl
  | cons p ps ih => simp [updatePlanets, updatePlanet_idem_paused, ih]

theorem animate_renders (s : SimState) : (animate s).renders = s.renders + 1 := rfl

theorem animate_controlsUpdates (s : SimState) :
    (animate s).controlsUpdates = s.controlsUpdates + 1 := rfl

theorem animate_iter_renders (s : SimState) (n : ℕ) :
    (animate^[n] s).renders = s.renders + n := by
  induction n with
  | zero => rfl
  | succ m ih =>
    rw [Function.iterate_succ_apply', animate_renders, ih]
    omega

theorem animate_iter_controlsUpdates (s : SimState) (n : ℕ) :
    (animate^[n] s).controlsUpdates = s.controlsUpdates + n := by
  induction n with
  | zero => rfl
  | succ m ih =>
    rw [Function.iterate_succ_apply', animate_controlsUpdates, ih]
    omega

theorem animate_iter_paused (s : SimState) (hp : s.isPaused = true) (n : ℕ) :
    (animate^[n] s).isPaused = true ∧ (animate^[n] s).time = s.time := by
  induction n with
  | zero => exact ⟨hp, rfl⟩
  | succ m ih =>
    rw [Function.iterate_succ_apply']
    exact ⟨by rw [animate_isPaused]; exact ih.1,
      by rw [animate_time_paused _ ih.1]; exact ih.2⟩

theorem animate_map_angle_paused (s : SimState) (hp : s.isPaused = true) :
    (animate s).planets.map (fun q => q.angle) = s.planets.map (fun q => q.angle) := by
  simp [animate, hp, updatePlanets_map_angle_paused]

theorem animate_iter_planets_paused (s : SimState) (hp : s.isPaused = true) :
    ∀ n, 1 ≤ n → (animate^[n] s).planets = (animate s).planets := by
  intro n hn
  induction n with
  | zero => exact absurd hn (by norm_num)
  | succ m ih =>
    rcases Nat.eq_zero_or_pos m with h0 | hpos
    · subst h0
      rw [Function.iterate_one]
    · have h1 := (animate_iter_paused s hp m).1
      have h2 := (animate_iter_paused s hp m).2
      rw [Function.iterate_succ_apply', animate_planets, h1, h2, ih hpos, animate_planets, hp]
      simp only [if_true]
      exact updatePlanets_idem_paused _ _ _

theorem animate_ne_nil (s : SimState) (h : s.planets ≠ []) : (animate s).planets ≠ [] := by
  rw [← List.length_pos] at h ⊢
  rw [animate_planets_length]
  exact h

/-- C3: while the paused flag is set, any number of ticks never changes any
body phase and never advances the simulation clock; the per-tick position
recompute is idempotent (every tick beyond the first leaves all positions as
the first tick left them); the external collaborators (camera controls,
renderer) are still invoked once per tick. -/
theorem claim3_paused_freeze (s : SimState) (n : ℕ) (hp : s.isPaused = true) :
    (animate^[n] s).planets.map (fun q => q.angle) = s.planets.map (fun q => q.angle) ∧
    (animate^[n] s).time = s.time ∧
    (1 ≤ n → (animate^[n] s).planets.map (fun q => q.meshPos)
        = (animate s).planets.map (fun q => q.meshPos)) ∧
    (animate^[n] s).controlsUpdates = s.controlsUpdates + n ∧
    (animate^[n] s).renders = s.renders + n := by
  refine ⟨?_, (animate_iter_paused s hp n).2,
    fun hn => by rw [animate_iter_planets_paused s hp n hn],
    animate_iter_controlsUpdates s n, animate_iter_renders s n⟩
  rcases Nat.eq_zero_or_pos n with h0 | hpos
  · subst h0
    rfl
  · rw [animate_iter_planets_paused s hp n hpos, animate_map_angle_paused s hp]

/-- Starting angles used for concrete witness states (the code draws them from
`Math.random() * 2 * Math.PI`; any values are representative). -/
def anglesEx : List ℝ := [0, 0, 0, 0, 0, 0, 0, 0, 0]

/-- A concrete running `Simulation` state over the real parameter table. -/
def simEx : SimState :=
  { planets := initPlanets bodiesTable anglesEx, time := 0, isPaused := false,
    targetPos := ⟨0, 0, 0⟩, camera := initCamera, controlsUpdates := 0, renders := 0 }

/-- The state `simEx` with the paused flag set. -/
def simExPaused : SimState := { simEx with isPaused := true }

/-- Witness for C3: two paused ticks on the concrete state leave the clock
untouched. -/
theorem claim3_witness : (animate^[2] simExPaused).time = simExPaused.time :=
  (claim3_paused_freeze simExPaused 2 rfl).2.1

theorem animate_central (s : SimState) (hne : s.planets ≠ []) :
    ∃ q, (animate s).planets[0]? = some q ∧ q.meshPos = ⟨0, 0, 0⟩ := by
  obtain ⟨p, hp⟩ : ∃ p, s.planets[0]? = some p := by
    cases hl : s.planets with
    | nil => exact absurd hl hne
    | cons a l => exact ⟨a, by simp⟩
  refine ⟨_, ?_, updatePlanet_meshPos_zero s.isPaused
    (if s.isPaused then s.time else s.time + 0.01) p⟩
  rw [animate_getElem?, hp]
  rfl

/-- C2: after every tick — whatever target was stored by `setTarget`, whatever
the paused flag, and however many ticks have elapsed — the central body
(index 0) sits exactly at the origin: the tick pins it unconditionally. -/
theorem claim2_central_pin (s : SimState) (v : Vec3) (n : ℕ)
    (hne : s.planets ≠ []) (hn : 1 ≤ n) :
    ∃ q, (animate^[n] (setTarget v s)).planets[0]? = some q ∧ q.meshPos = ⟨0, 0, 0⟩ := by
  have hne2 : ∀ m, (animate^[m] (setTarget v s)).planets ≠ [] := by
    intro m
    induction m with
    | zero => exact hne
    | succ k ih =>
      rw [Function.iterate_succ_apply']
      exact animate_ne_nil _ ih
  obtain ⟨m, rfl⟩ : ∃ m, n = m + 1 := ⟨n - 1, by omega⟩
  rw [Function.iterate_succ_apply']
  exact animate_central _ (hne2 m)

/-- Witness for C2 on the concrete state. -/
theorem claim2_witness :
    ∃ q, (animate^[1] (setTarget ⟨1, 2, 3⟩ simEx)).planets[0]? = some q ∧
      q.meshPos = ⟨0, 0, 0⟩ :=
  claim2_central_pin simEx ⟨1, 2, 3⟩ 1 (by simp [simEx, initPlanets, bodiesTable, anglesEx]) le_rfl


/-! ## Orbit-model claims -/

/-- The position contract as worded by the spec (refinement comparison):
`b = a*sqrt(1-e^2)`, `c = a*e`, `x = cos(phase)*a - c`, `z = sin(phase)*b`,
`y = 0`. -/
noncomputable def specPosition (a e phase : ℝ) : Vec3 :=
  ⟨Real.cos phase * a - a * e, 0, Real.sin phase * (a * Real.sqrt (1 - e ^ 2))⟩

/-- A Mercury-like body (`a = 10`, `e = 0.206`, `speed = 4.0`) whose starting
phase is chosen so that one unpaused advance brings the phase to `π/2`. -/
noncomputable def mercuryStart : Planet :=
  mkPlanet ⟨"Mercury", 10, 0.4, 0.7, 0.7, 0.7, 4.0, 0.206⟩ (Real.pi / 2 - 4.0 * 0.005)

/-- C1: for every non-central body with `a ≥ 0` and `e ∈ [0,1)`, at any phase,
the computed position is exactly the spec formula
`(cos(phase)*a - a*e, 0, sin(phase)*a*sqrt(1-e^2))`; in particular the
Mercury-like body reaching phase `π/2` lands at `(-2.06, 0, 10*sqrt(1-0.206^2))`. -/
theorem claim1_orbit_formula :
    (∀ (b : Bool) (t : ℝ) (i : ℕ) (p : Planet), i ≠ 0 →
      0 ≤ p.data.r → 0 ≤ p.data.e → p.data.e < 1 →
      (updatePlanet b t i p).meshPos
        = specPosition p.data.r p.data.e (updatePlanet b t i p).angle) ∧
    (updatePlanet false 0 1 mercuryStart).meshPos
      = ⟨-2.06, 0, 10 * Real.sqrt (1 - 0.206 ^ 2)⟩ := by
  constructor
  · intro b t i p hi _ _ _
    cases b <;> simp [updatePlanet, hi, specPosition, orbitPosition, pow_two]
  · have harg : Real.pi / 2 - 4.0 * 0.005 + 4.0 * 0.005 = Real.pi / 2 := by ring
    simp only [updatePlanet, mercuryStart, mkPlanet, orbitPosition, if_neg one_ne_zero,
      Bool.false_eq_true, if_false]
    norm_num [harg, Real.cos_pi_div_two, Real.sin_pi_div_two, pow_two]

/-- Witness for C1 at the Mercury-like body. -/
theorem claim1_witness :
    (updatePlanet false 0 1 mercuryStart).meshPos
      = specPosition mercuryStart.data.r mercuryStart.data.e
          (updatePlanet false 0 1 mercuryStart).angle :=
  claim1_orbit_formula.1 false 0 1 mercuryStart (by norm_num)
    (by norm_num [mercuryStart, mkPlanet]) (by norm_num [mercuryStart, mkPlanet])
    (by norm_num [mercuryStart, mkPlanet])

/-- C8: on an unpaused tick, every non-central body advances its phase by
exactly `speed * 0.005` and then gets its position recomputed from the new
phase by the orbit model; the central body's phase does not change. -/
theorem claim8_unpaused_advance (s : SimState) (i : ℕ) (p : Planet)
    (hp : s.isPaused = false) (hget : s.planets[i]? = some p) :
    (i ≠ 0 → ∃ q, (animate s).planets[i]? = some q ∧
      q.angle = p.angle + p.data.speed * 0.005 ∧
      q.meshPos = orbitPosition p.data.r p.data.e q.angle) ∧
    (i = 0 → ∃ q, (animate s).planets[i]? = some q ∧ q.angle = p.angle) := by
  constructor
  · intro hi
    refine ⟨updatePlanet false (s.time + 0.01) i p, ?_, ?_, ?_⟩
    · rw [animate_getElem?, hget, hp]
      simp
    · simp [updatePlanet, hi]
    · simp [updatePlanet, hi]
  · intro hi
    subst hi
    refine ⟨updatePlanet false (s.time + 0.01) 0 p, ?_, ?_⟩
    · rw [animate_getElem?, hget, hp]
      simp
    · simp [updatePlanet]

/-- Witness for C8: the Mercury entry of the concrete running state. -/
theorem claim8_witness :
    ∃ q, (animate simEx).planets[1]? = some q ∧
      q.angle = (mkPlanet ⟨"Mercury", 10, 0.4, 0.7, 0.7, 0.7, 4.0, 0.206⟩ 0).angle
        + (mkPlanet ⟨"Mercury", 10, 0.4, 0.7, 0.7, 0.7, 4.0, 0.206⟩ 0).data.speed * 0.005 ∧
      q.meshPos = orbitPosition
        (mkPlanet ⟨"Mercury", 10, 0.4, 0.7, 0.7, 0.7, 4.0, 0.206⟩ 0).data.r
        (mkPlanet ⟨"Mercury", 10, 0.4, 0.7, 0.7, 0.7, 4.0, 0.206⟩ 0).data.e q.angle :=
  (claim8_unpaused_advance simEx 1 _ rfl
    (by simp [simEx, initPlanets, bodiesTable, anglesEx])).1 (by norm_num)

/-- C10: on every tick (paused or not), every non-central body's renderable
handle receives the freshly computed orbital position, and its label anchor is
set to that position plus `(0, size + 2.0, 0)`. -/
theorem claim10_label_anchor (s : SimState) (i : ℕ) (p : Planet)
    (hget : s.planets[i]? = some p) (hi : i ≠ 0) :
    ∃ q, (animate s).planets[i]? = some q ∧
      q.meshPos = orbitPosition p.data.r p.data.e q.angle ∧
      q.labelPos = vadd q.meshPos ⟨0, p.data.size + 2.0, 0⟩ := by
  refine ⟨updatePlanet s.isPaused (if s.isPaused then s.time else s.time + 0.01) i p,
    ?_, ?_, ?_⟩
  · rw [animate_getElem?, hget]
    rfl
  · cases hb : s.isPaused <;> simp [updatePlanet, hi]
  · cases hb : s.isPaused <;>
      simp [updatePlanet, hi, vadd, orbitPosition]

/-- Witness for C10: the Venus entry of the concrete running state. -/
theorem claim10_witness :
    ∃ q, (animate simEx).planets[2]? = some q ∧
      q.meshPos = orbitPosition
        (mkPlanet ⟨"Venus", 15, 0.9, 0.9, 0.8, 0.6, 3.0, 0.007⟩ 0).data.r
        (mkPlanet ⟨"Venus", 15, 0.9, 0.9, 0.8, 0.6, 3.0, 0.007⟩ 0).data.e q.angle ∧
      q.labelPos = vadd q.meshPos
        ⟨0, (mkPlanet ⟨"Venus", 15, 0.9, 0.9, 0.8, 0.6, 3.0, 0.007⟩ 0).data.size + 2.0, 0⟩ :=
  claim10_label_anchor simEx 2 _
    (by simp [simEx, initPlanets, bodiesTable, anglesEx]) (by norm_num)

/-! ## Registry construction (no validation) -/

/-- A parameter table containing a body with eccentricity `1.5 ∉ [0,1)`. -/
def rogueTable : List BodyData :=
  [⟨"Sun", 0, 5.0, 1.0, 0.6, 0.1, 0, 0⟩,
   ⟨"Rogue", 10, 1.0, 0.5, 0.5, 0.5, 1.0, 1.5⟩]

/-- A parameter table containing a duplicated body name. -/
def dupTable : List BodyData :=
  [⟨"Sun", 0, 5.0, 1.0, 0.6, 0.1, 0, 0⟩,
   ⟨"Mercury", 10, 0.4, 0.7, 0.7, 0.7, 4.0, 0.206⟩,
   ⟨"Mercury", 12, 0.4, 0.7, 0.7, 0.7, 4.0, 0.1⟩]

theorem initPlanets_map_data (table : List BodyData) (angles : List ℝ)
    (h : table.length = angles.length) :
    (initPlanets table angles).map (fun p => p.data) = table := by
  induction table generalizing angles with
  | nil => rfl
  | cons b bs ih =>
    cases angles with
    | nil => simp at h
    | cons a as =>
      simp only [initPlanets, List.zipWith_cons_cons, List.map_cons]
      congr 1
      exact ih as (by simpa using h)

/-- C6 counterexample: `init` builds the registry with no validation at all —
a table with eccentricity `1.5 ∉ [0,1)` and a table with a duplicate name are
both accepted verbatim, so construction does not fail with a
ConfigurationError (no such error path exists in the code). -/
theorem claim6_counterexample :
    (∃ b ∈ rogueTable, ¬ (0 ≤ b.e ∧ b.e < 1)) ∧
    ¬ (dupTable.map (fun b => b.name)).Nodup ∧
    (initPlanets rogueTable [0, 0]).map (fun p => p.data) = rogueTable ∧
    (initPlanets dupTable [0, 0, 0]).map (fun p => p.data) = dupTable := by
  refine ⟨⟨⟨"Rogue", 10, 1.0, 0.5, 0.5, 0.5, 1.0, 1.5⟩, by simp [rogueTable], by norm_num⟩,
    by decide, rfl, rfl⟩

/-- C6 (amended): registry construction is total and performs no validation:
every parameter table — including out-of-range eccentricities and duplicate
names — paired with as many starting phases yields one registry entry per
table row, carrying the row verbatim; no ConfigurationError exists, and all
runtime operations are likewise total. -/
theorem claim6_no_validation (table : List BodyData) (angles : List ℝ)
    (h : table.length = angles.length) :
    (initPlanets table angles).map (fun p => p.data) = table ∧
    (initPlanets table angles).length = table.length := by
  refine ⟨initPlanets_map_data table angles h, ?_⟩
  rw [initPlanets, List.length_zipWith]
  omega

/-- Witness for the amended C6 at the out-of-range table. -/
theorem claim6_witness :
    (initPlanets rogueTable [0, 0]).map (fun p => p.data) = rogueTable ∧
    (initPlanets rogueTable [0, 0]).length = rogueTable.length :=
  claim6_no_validation rogueTable [0, 0] rfl

/-! ## UI event layer (`main.js`) -/

/-- The page state of `main.js`: the simulation instance plus the UI-level
`isPaused` flag toggled by the stop button. -/
structure AppState where
  sim : SimState
  uiPaused : Bool

/-- The discrete external events wired up in `main.js`. -/
inductive UIEvent where
  | clickZoomIn
  | clickZoomOut
  | clickStop
  | tick

/-- Event handling in `main.js`: the zoom buttons call `simulation.zoomIn()` /
`simulation.zoomOut()` synchronously in their click handlers; the stop button
toggles the UI paused flag; the animation tick runs the monkey-patched
`animate`, i.e. `updateInteraction({isStopped: isPaused})` followed by the
original `animate` (button color flashes are cosmetic and not modelled). -/
noncomputable def uiStep : UIEvent → AppState → AppState
  | .clickZoomIn, a => { a with sim := { a.sim with camera := zoomIn a.sim.camera } }
  | .clickZoomOut, a => { a with sim := { a.sim with camera := zoomOut a.sim.camera } }
  | .clickStop, a => { a with uiPaused := !a.uiPaused }
  | .tick, a => { a with sim := animate (updateInteraction a.uiPaused a.sim) }

/-- The concrete page state at startup. -/
def appEx : AppState := { sim := simEx, uiPaused := false }

/-- C7 counterexample: a zoom request is applied to the camera immediately by
the click handler itself (distance 100 → 80 before any tick), and the
following tick leaves the camera untouched — so no zoom step is queued for,
consumed by, or cleared on the next tick, contrary to the claim. -/
theorem claim7_counterexample :
    camDist (uiStep .clickZoomIn appEx).sim.camera ≠ camDist appEx.sim.camera ∧
    (uiStep .tick (uiStep .clickZoomIn appEx)).sim.camera
      = (uiStep .clickZoomIn appEx).sim.camera := by
  constructor
  · have hcam : appEx.sim.camera = initCamera := rfl
    have h1 : camDist (uiStep .clickZoomIn appEx).sim.camera = 80 := by
      show camDist (zoomIn appEx.sim.camera) = 80
      rw [hcam, camDist_zoomIn _ (by rw [camDist_initCamera]; norm_num), camDist_initCamera,
        max_eq_right (by norm_num [initCamera])]
      norm_num
    rw [h1, hcam, camDist_initCamera]
    norm_num
  · rfl

/-- C7 (amended): each zoom button press applies exactly one discrete zoom
step synchronously at the time of the click (one application of the bounded
factor per call), nothing is accumulated, and the frame tick neither applies
nor clears any zoom: it leaves the camera unchanged. -/
theorem claim7_zoom_immediate (a : AppState) (hd : camDist a.sim.camera ≠ 0)
    (hM : 0 ≤ a.sim.camera.maxDistance) :
    camDist (uiStep .clickZoomIn a).sim.camera
      = max a.sim.camera.minDistance (camDist a.sim.camera * 0.8) ∧
    camDist (uiStep .clickZoomOut a).sim.camera
      = min a.sim.camera.maxDistance (camDist a.sim.camera * 1.25) ∧
    (uiStep .tick a).sim.camera = a.sim.camera :=
  ⟨camDist_zoomIn _ hd, camDist_zoomOut _ hM, rfl⟩

/-- Witness for the amended C7 at the startup page state. -/
theorem claim7_witness :
    camDist (uiStep .clickZoomIn appEx).sim.camera
      = max appEx.sim.camera.minDistance (camDist appEx.sim.camera * 0.8) :=
  (claim7_zoom_immediate appEx
    (by rw [show appEx.sim.camera = initCamera from rfl, camDist_initCamera]; norm_num)
    (by norm_num [appEx, simEx, initCamera])).1

end Galaxy
